import Mathlib

/-!
Verification of the `thumper` heartbeat-registry core (`src/core/dj.rs`).

The facade `TheDJ` talks to a registry-owning worker (the `Deck` / Keeper)
over mpsc channels, holds a read-only handle (`Arm`) to the shared record
map, and offers direct read queries plus a timed poll loop.

Shallow embedding conventions:
- channel sends are modelled by a `sendOk : Bool` flag (an mpsc send fails
  exactly when the receiver is gone) and the list of messages actually
  delivered to the Keeper is returned explicitly;
- a blocking receive is modelled by the reply value it yields,
  `Except Unit DM2DJ` (the `Unit` error is a closed reply channel);
- a `RwLock` read is modelled by `LockRead`, whose `poisoned` constructor is
  the `Err` branch of `.read()`;
- a Rust panic (`.expect`) is modelled by the `none` value of an outer
  `Option` on the operations that can hit it;
- wall-clock time in `block_for_beats` is idealized: the elapsed time at the
  top of loop iteration `k` is `k * 250` milliseconds (the poll interval),
  and the clock never runs backwards (so `duration_since` never errors).
-/

/-- The error type `TE`. Its declaration is outside `src/`; variants and
payloads are taken from their uses in `src/core/dj.rs` (channel payloads
dropped, the `RegisterFail` static string kept). -/
inductive TE where
  | DM2DeckSendFail
  | ChannelRecvFail
  | MaximumConfusion
  | RegisterFail (msg : String)
  | MissingRecord
  | EmptyRoster
  | NothingNewToReport
  deriving DecidableEq, Repr

/-- Modelled from the spec: `Record` is declared outside `src/`.
"Record — id, name, history: ordered, append-only sequence of heartbeat
events"; `dj.rs` accesses the history as `raw_track` via `.back()`.
The heartbeat-event payload shape is out of scope, so events are `Nat`. -/
structure Record where
  id : Int
  name : String
  raw_track : List Nat
  deriving DecidableEq, Repr

/-- The registry: the map `id → Record` owned by the Keeper, as an
association list (iteration order of the map is fixed by the list). -/
abbrev RecordMap := List (Int × Record)

/-- Commands sent from the facade to the Keeper (`DM2Deck`); declared outside
`src/`, variants taken from their uses in `src/core/dj.rs`. -/
inductive DM2Deck where
  | Init
  | Registration (name : String)
  | Deregistration (id : Int)
  deriving DecidableEq, Repr

/-- The read-only shared handle to the record map (`Arm`). Its only role in
`dj.rs` is to be stored, cloned and `.read()`; the value a read yields is
passed separately (`LockRead`), so the handle itself carries no state. -/
structure Arm where
  deriving DecidableEq, Repr

deriving instance DecidableEq for Except

/-- Replies sent from the Keeper to the DJ (`DM2DJ`, declared in `dj.rs`). -/
inductive DM2DJ where
  | ID (r : Except TE Int)
  | ARM (arm : Arm)
  deriving DecidableEq, Repr

/-- Outcome of `Arm::read()`: `ok` yields the current record map,
`poisoned` is the `Err` case of the `RwLock` read. -/
inductive LockRead (α : Type) where
  | ok (m : α)
  | poisoned
  deriving DecidableEq, Repr

/-- A clone of the Keeper command channel's send side; stateless here. -/
structure Sender where
  deriving DecidableEq, Repr

/-- Modelled from the spec: `Beat` is declared outside `src/`.
"`Beat{id, sender=clone of Keeper command channel}`". -/
structure Beat where
  id : Int
  sender : Sender
  deriving DecidableEq, Repr

/-- The facade state the direct-read queries depend on: the optional shared
map handle (`atomic_record_map`). The channel endpoints of the real struct
are modelled per-operation (by `sendOk` flags and reply values). -/
structure TheDJ where
  atomic_record_map : Option Arm
  deriving DecidableEq, Repr

/-- `TheDJ::init_`: sends `DM2Deck::Init()`; on send failure returns
`DM2DeckSendFail`; otherwise blocks on the reply channel and stores the
received `ARM`, erring with `ChannelRecvFail` on a closed channel and
`MaximumConfusion` on a reply of the wrong shape. The `should_report` flag
only spawns the output runner thread and does not affect the handshake. -/
def TheDJ.init_ (should_report : Bool) (sendOk : Bool) (reply : Except Unit DM2DJ) :
    Except TE TheDJ :=
  if sendOk = false then .error TE.DM2DeckSendFail
  else
    match reply with
    | .ok (.ARM arm) => .ok { atomic_record_map := some arm }
    | .error _ => .error TE.ChannelRecvFail
    | .ok _ => .error TE.MaximumConfusion

/-- `TheDJ::init()`. -/
def TheDJ.init (sendOk : Bool) (reply : Except Unit DM2DJ) : Except TE TheDJ :=
  TheDJ.init_ false sendOk reply

/-- `TheDJ::init_with_reporting()`. -/
def TheDJ.init_with_reporting (sendOk : Bool) (reply : Except Unit DM2DJ) :
    Except TE TheDJ :=
  TheDJ.init_ true sendOk reply

/-- `TheDJ::spin_new`: rejects an empty name before any send; otherwise
sends `Registration(name)` and blocks for the reply. The first component is
the list of messages delivered to the Keeper. -/
def TheDJ.spin_new (name : String) (sendOk : Bool) (reply : Except Unit DM2DJ) :
    List DM2Deck × Except TE Beat :=
  if name.length = 0 then
    ([], .error (TE.RegisterFail "Error: Incorrect register data"))
  else if sendOk = false then
    ([], .error TE.DM2DeckSendFail)
  else
    ([DM2Deck.Registration name],
      match reply with
      | .ok (.ID (.ok id)) => .ok { id := id, sender := {} }
      | .ok (.ID (.error e)) => .error e
      | .error _ => .error TE.ChannelRecvFail
      | .ok _ => .error TE.MaximumConfusion)

/-- `TheDJ::unregister`: sends `Deregistration(id)`, awaits no reply. -/
def TheDJ.unregister (id : Int) (sendOk : Bool) : List DM2Deck × Except TE Unit :=
  if sendOk = false then ([], .error TE.DM2DeckSendFail)
  else ([DM2Deck.Deregistration id], .ok ())

/-- The list `get_roster` builds: one `id` field per record in map order. -/
def rosterIds (m : RecordMap) : List Int :=
  m.map (fun x => x.2.id)

/-- `TheDJ::get_record`: panics (`none`) when `atomic_record_map` is `None`;
on a poisoned lock the `if let Ok` fails and the function falls through to
`Err(MissingRecord)`; otherwise looks the id up in the map. -/
def TheDJ.get_record (dj : TheDJ) (view : LockRead RecordMap) (id : Int) :
    Option (Except TE Record) :=
  match dj.atomic_record_map with
  | none => none
  | some _ =>
    some (match view with
      | .ok record_map =>
        match record_map.find? (fun e => e.1 == id) with
        | some e => .ok e.2
        | none => .error TE.MissingRecord
      | .poisoned => .error TE.MissingRecord)

/-- `TheDJ::get_roster`: panics (`none`) when `atomic_record_map` is `None`;
on a poisoned lock returns `MaximumConfusion`; otherwise collects every
record's id, erring with `EmptyRoster` on an empty result. -/
def TheDJ.get_roster (dj : TheDJ) (view : LockRead RecordMap) :
    Option (Except TE (List Int)) :=
  match dj.atomic_record_map with
  | none => none
  | some _ =>
    some (match view with
      | .ok record_map =>
        if (rosterIds record_map).isEmpty then .error TE.EmptyRoster
        else .ok (rosterIds record_map)
      | .poisoned => .error TE.MaximumConfusion)

/-- The ids `get_roster_actives` collects: records whose `raw_track` has a
last element (`.back().is_some()`), in map order. -/
def activeIds (m : RecordMap) : List Int :=
  ((m.map Prod.snd).filter (fun r => r.raw_track.getLast?.isSome)).map (fun r => r.id)

/-- `TheDJ::get_roster_actives`: like `get_roster` but keeps only records
whose history is non-empty. -/
def TheDJ.get_roster_actives (dj : TheDJ) (view : LockRead RecordMap) :
    Option (Except TE (List Int)) :=
  match dj.atomic_record_map with
  | none => none
  | some _ =>
    some (match view with
      | .ok record_map =>
        if (activeIds record_map).isEmpty then .error TE.EmptyRoster
        else .ok (activeIds record_map)
      | .poisoned => .error TE.MaximumConfusion)

/-- `TheDJ::clear_all`: reads the roster once via `get_roster` (propagating
its error), then sends `Deregistration(id)` for each id in that snapshot,
short-circuiting at the first failed send. Delivered messages are returned
alongside the result; the outer `Option` propagates the `get_roster` panic. -/
def TheDJ.clear_all (dj : TheDJ) (view : LockRead RecordMap) (sendOk : Bool) :
    Option (List DM2Deck × Except TE Unit) :=
  match dj.get_roster view with
  | none => none
  | some (.error e) => some ([], .error e)
  | some (.ok roster) =>
    if sendOk = false then some ([], .error TE.DM2DeckSendFail)
    else some (roster.map DM2Deck.Deregistration, .ok ())

/-- One poll's effect on `running_count` in `block_for_beats`:
`if let Ok(roster) = ... { if roster.len() >= running_count { running_count = roster.len() } }`. -/
def bfbStep (rc : Nat) (pollResult : Except TE (List Int)) : Nat :=
  match pollResult with
  | .ok roster => if rc ≤ roster.length then roster.length else rc
  | .error _ => rc

/-- The loop of `TheDJ::block_for_beats`, at iteration `k` with current
`running_count = rc`; `polls k` is what `get_roster_actives()` returns at
iteration `k`, and the elapsed time at the top of iteration `k` is
`k * 250` ms. Checks the deadline first, then polls, then tests the count. -/
def block_for_beats_aux (count timeoutMs : Nat) (polls : Nat → Except TE (List Int))
    (rc k : Nat) : Except TE Unit :=
  if timeoutMs ≤ k * 250 then .error TE.NothingNewToReport
  else if count ≤ bfbStep rc (polls k) then .ok ()
  else block_for_beats_aux count timeoutMs polls (bfbStep rc (polls k)) (k + 1)
  termination_by timeoutMs - k * 250
  decreasing_by omega

/-- `TheDJ::block_for_beats(count, timeout)`: starts with
`running_count = 0` at iteration 0. -/
def block_for_beats (count timeoutMs : Nat) (polls : Nat → Except TE (List Int)) :
    Except TE Unit :=
  block_for_beats_aux count timeoutMs polls 0 0

/-- The value of `running_count` after the first `k` polls of a
`block_for_beats` call. -/
def runningAfter (polls : Nat → Except TE (List Int)) : Nat → Nat
  | 0 => 0
  | k + 1 => bfbStep (runningAfter polls k) (polls k)

theorem runningAfter_succ (polls : Nat → Except TE (List Int)) (k : Nat) :
    runningAfter polls (k + 1) = bfbStep (runningAfter polls k) (polls k) := rfl

theorem bfbStep_le (rc : Nat) (r : Except TE (List Int)) : rc ≤ bfbStep rc r := by
  cases r with
  | ok roster => simp only [bfbStep]; split <;> omega
  | error e => simp only [bfbStep]; omega

theorem runningAfter_congr (polls polls' : Nat → Except TE (List Int)) (k : Nat)
    (h : ∀ j < k, polls' j = polls j) :
    runningAfter polls' k = runningAfter polls k := by
  induction k with
  | zero => rfl
  | succ k ih =>
    rw [runningAfter_succ, runningAfter_succ, ih (fun j hj => h j (by omega)),
      h k (by omega)]

theorem bfb_aux_advance (count timeoutMs : Nat) (polls : Nat → Except TE (List Int))
    (k : Nat) (h : ∀ j < k, j * 250 < timeoutMs ∧ runningAfter polls (j + 1) < count) :
    block_for_beats count timeoutMs polls =
      block_for_beats_aux count timeoutMs polls (runningAfter polls k) k := by
  induction k with
  | zero => rfl
  | succ k ih =>
    have hk := h k (by omega)
    rw [ih (fun j hj => h j (by omega)), block_for_beats_aux]
    rw [if_neg (by omega), if_neg (by rw [← runningAfter_succ]; omega), ← runningAfter_succ]

theorem bfb_ok_of (count timeoutMs : Nat) (polls : Nat → Except TE (List Int)) (k : Nat)
    (hk : k * 250 < timeoutMs) (hc : count ≤ runningAfter polls (k + 1)) :
    block_for_beats count timeoutMs polls = .ok () := by
  have hex : ∃ j, count ≤ runningAfter polls (j + 1) := ⟨k, hc⟩
  have hj₀ : count ≤ runningAfter polls (Nat.find hex + 1) := Nat.find_spec hex
  have hj₀k : Nat.find hex ≤ k := Nat.find_min' hex hc
  have hadv := bfb_aux_advance count timeoutMs polls (Nat.find hex)
    (fun j hj => ⟨by omega, by have := Nat.find_min hex hj; omega⟩)
  rw [hadv, block_for_beats_aux, if_neg (by omega), if_pos (by rw [← runningAfter_succ]; omega)]

/-- C1: for every count and timeout, `block_for_beats(count, timeout)` polls
`get_roster_actives` every 250ms, tracks the maximum active-count observed so
far, and returns `Ok` as soon as that maximum reaches `count` at a poll that
happens before the timeout expires — without waiting for the full timeout,
and regardless of what later polls observe (any poll sequence agreeing up to
that poll, in particular one where the active count then drops, gives the
same `Ok`). -/
theorem C1_block_for_beats_ok_at_first_reach (count timeoutMs : Nat)
    (polls polls' : Nat → Except TE (List Int)) (k : Nat)
    (hk : k * 250 < timeoutMs) (hc : count ≤ runningAfter polls (k + 1))
    (hagree : ∀ j ≤ k, polls' j = polls j) :
    block_for_beats count timeoutMs polls = .ok () ∧
    block_for_beats count timeoutMs polls' = .ok () := by
  refine ⟨bfb_ok_of count timeoutMs polls k hk hc, bfb_ok_of count timeoutMs polls' k hk ?_⟩
  rw [runningAfter_congr polls polls' (k + 1) (fun j hj => hagree j (by omega))]
  exact hc

/-- A poll trace on which two records are active at every poll. -/
def pollsTwoActive : Nat → Except TE (List Int) := fun _ => .ok [1, 2]

/-- A poll trace that observes two active records once, after which the
active count drops to zero (the roster query errs with `EmptyRoster`). -/
def pollsTwoThenDrop : Nat → Except TE (List Int) := fun j =>
  if j = 0 then .ok [1, 2] else .error TE.EmptyRoster

theorem C1_witness :
    block_for_beats 2 5000 pollsTwoActive = .ok () ∧
    block_for_beats 2 5000 pollsTwoThenDrop = .ok () :=
  C1_block_for_beats_ok_at_first_reach 2 5000 pollsTwoActive pollsTwoThenDrop 0
    (by omega) (by decide)
    (fun j hj => by rw [Nat.le_zero.mp hj]; rfl)

/-- C2: the recorded maximum in `block_for_beats` only increases
monotonically within a call: a single poll never reduces `running_count`
(`bfbStep`), and the value after `k + 1` polls is at least the value after
`k` polls, whatever the poll observed. -/
theorem C2_running_count_monotone (polls : Nat → Except TE (List Int)) (k rc : Nat)
    (r : Except TE (List Int)) :
    runningAfter polls k ≤ runningAfter polls (k + 1) ∧ rc ≤ bfbStep rc r := by
  refine ⟨?_, bfbStep_le rc r⟩
  rw [runningAfter_succ]
  exact bfbStep_le (runningAfter polls k) (polls k)

/-- C3: if the running maximum active count never reaches `count`, the call
returns the timeout error `NothingNewToReport` (the `DeadlineExceeded` kind)
once elapsed time reaches the timeout — it terminates (the model is a total
function) and never returns success. -/
theorem C3_block_for_beats_timeout (count timeoutMs : Nat)
    (polls : Nat → Except TE (List Int))
    (h : ∀ k, runningAfter polls (k + 1) < count) :
    block_for_beats count timeoutMs polls = .error TE.NothingNewToReport := by
  have hex : ∃ j, timeoutMs ≤ j * 250 := ⟨timeoutMs, by omega⟩
  have hadv := bfb_aux_advance count timeoutMs polls (Nat.find hex)
    (fun j hj => ⟨by have := Nat.find_min hex hj; omega, h j⟩)
  rw [hadv, block_for_beats_aux, if_pos (Nat.find_spec hex)]

/-- A poll trace on which the roster query always errs (nothing active). -/
def pollsNothingActive : Nat → Except TE (List Int) := fun _ => .error TE.EmptyRoster

theorem runningAfter_pollsNothingActive (k : Nat) :
    runningAfter pollsNothingActive k = 0 := by
  induction k with
  | zero => rfl
  | succ k ih => rw [runningAfter_succ, ih]; rfl

theorem C3_witness :
    block_for_beats 3 2000 pollsNothingActive = .error TE.NothingNewToReport :=
  C3_block_for_beats_timeout 3 2000 pollsNothingActive
    (fun k => by rw [runningAfter_pollsNothingActive]; omega)

/-- C4: `spin_new("")` always fails with the validation error
`RegisterFail` before any message is sent to the Keeper (the delivered
message list is empty, so no registry mutation can result), whatever the
channel state; for a non-empty name the `Registration` message is sent and
the call blocks for the matching reply — in particular a matching
`ID(Ok(id))` reply yields `Ok(Beat{id, sender})`. -/
theorem C4_spin_new_empty_name_validation (name : String) (sendOk sendOk' : Bool)
    (reply reply' : Except Unit DM2DJ) (i : Int)
    (h1 : name ≠ "") (h2 : sendOk = true) :
    TheDJ.spin_new "" sendOk' reply' =
      ([], .error (TE.RegisterFail "Error: Incorrect register data")) ∧
    (TheDJ.spin_new name sendOk reply).1 = [DM2Deck.Registration name] ∧
    TheDJ.spin_new name sendOk (.ok (.ID (.ok i))) =
      ([DM2Deck.Registration name], .ok { id := i, sender := {} }) := by
  have hlen : name.length ≠ 0 := fun h => h1 (String.ext (List.length_eq_zero.mp h))
  subst h2
  refine ⟨rfl, ?_, ?_⟩ <;>
    simp [TheDJ.spin_new, hlen]

theorem C4_witness :
    TheDJ.spin_new "" false (.error ()) =
      ([], .error (TE.RegisterFail "Error: Incorrect register data")) ∧
    (TheDJ.spin_new "a" true (.error ())).1 = [DM2Deck.Registration "a"] ∧
    TheDJ.spin_new "a" true (.ok (.ID (.ok 7))) =
      ([DM2Deck.Registration "a"], .ok { id := 7, sender := {} }) :=
  C4_spin_new_empty_name_validation "a" true false (.error ()) (.error ()) 7
    (by decide) rfl

/-- C5: on a readable registry view, `get_roster_actives()` succeeds with
exactly the ids of records whose heartbeat history (`raw_track`) is
non-empty — a record with an empty history, e.g. freshly registered, is
excluded — and when no record is active it fails with `EmptyRoster` instead
of returning an empty list. -/
theorem C5_get_roster_actives_exact (dj : TheDJ) (a : Arm) (m mEmpty : RecordMap)
    (id : Int) (hdj : dj.atomic_record_map = some a)
    (hact : activeIds m ≠ []) (hemp : activeIds mEmpty = []) :
    dj.get_roster_actives (.ok m) = some (.ok (activeIds m)) ∧
    (id ∈ activeIds m ↔ ∃ r ∈ m.map Prod.snd, r.raw_track ≠ [] ∧ r.id = id) ∧
    dj.get_roster_actives (.ok mEmpty) = some (.error TE.EmptyRoster) := by
  refine ⟨?_, ?_, ?_⟩
  · simp [TheDJ.get_roster_actives, hdj, List.isEmpty_iff, hact]
  · simp only [activeIds, List.mem_map, List.mem_filter, List.getLast?_isSome]
    constructor
    · rintro ⟨r, ⟨hr, hne⟩, hid⟩
      exact ⟨r, hr, hne, hid⟩
    · rintro ⟨r, hr, hne, hid⟩
      exact ⟨r, ⟨hr, hne⟩, hid⟩
  · simp [TheDJ.get_roster_actives, hdj, List.isEmpty_iff, hemp]

/-- The facade state after a successful init handshake. -/
def djA : TheDJ := { atomic_record_map := some {} }

/-- A registry with one active record (id 1) and one idle record (id 2). -/
def mapActive : RecordMap :=
  [(1, { id := 1, name := "a", raw_track := [0] }),
   (2, { id := 2, name := "b", raw_track := [] })]

/-- A registry whose only record (id 2) has an empty history. -/
def mapIdle : RecordMap := [(2, { id := 2, name := "b", raw_track := [] })]

theorem C5_witness :
    djA.get_roster_actives (.ok mapActive) = some (.ok (activeIds mapActive)) ∧
    (1 ∈ activeIds mapActive ↔
      ∃ r ∈ mapActive.map Prod.snd, r.raw_track ≠ [] ∧ r.id = 1) ∧
    djA.get_roster_actives (.ok mapIdle) = some (.error TE.EmptyRoster) :=
  C5_get_roster_actives_exact djA {} mapActive mapIdle 1 rfl (by decide) (by decide)

/-- C6: on a readable registry view, `get_roster()` fails with `EmptyRoster`
when the registry is empty (never an empty success list), and on a non-empty
registry succeeds with the ids of all currently registered records. -/
theorem C6_get_roster_contract (dj : TheDJ) (a : Arm) (m : RecordMap) (id : Int)
    (hdj : dj.atomic_record_map = some a) (hne : m ≠ []) :
    dj.get_roster (.ok ([] : RecordMap)) = some (.error TE.EmptyRoster) ∧
    dj.get_roster (.ok m) = some (.ok (rosterIds m)) ∧
    (id ∈ rosterIds m ↔ ∃ e ∈ m, e.2.id = id) := by
  refine ⟨?_, ?_, ?_⟩
  · simp [TheDJ.get_roster, hdj, rosterIds]
  · have hr : rosterIds m ≠ [] := fun h => hne (List.map_eq_nil_iff.mp h)
    simp [TheDJ.get_roster, hdj, List.isEmpty_iff, hr]
  · simp [rosterIds, List.mem_map]

theorem C6_witness :
    djA.get_roster (.ok ([] : RecordMap)) = some (.error TE.EmptyRoster) ∧
    djA.get_roster (.ok mapActive) = some (.ok (rosterIds mapActive)) ∧
    (1 ∈ rosterIds mapActive ↔ ∃ e ∈ mapActive, e.2.id = 1) :=
  C6_get_roster_contract djA {} mapActive 1 rfl (by decide)

/-- Modelled from the spec: the id the Keeper allocates at registration
("allocates a fresh unique id"); the Keeper's source is not under `src/`. -/
def freshId (m : RecordMap) : Int :=
  (m.map Prod.fst).foldr max 0 + 1

/-- Modelled from the spec: the Keeper (`Deck`), whose source is not under
`src/`, processing one command against the registry it owns:
"`Register(name)` → allocates a fresh unique id, inserts an empty-history
Record"; "`Deregister(id)` → removes the Record if present; idempotent";
`Init` constructs and hands back the shared view, mutating nothing. -/
def deckApply (m : RecordMap) (cmd : DM2Deck) : RecordMap :=
  match cmd with
  | .Init => m
  | .Registration name => m ++ [(freshId m, { id := freshId m, name := name, raw_track := [] })]
  | .Deregistration id => m.filter (fun e => !(e.1 == id))

/-- C7: for an id absent from the registry, `get_record(id)` fails with
`MissingRecord` and `id` does not appear in any list `get_roster()` returns;
in particular, `unregister(id)` sends `Deregistration(id)`, after the Keeper
processes it `id` is no longer a key of the registry, and both consequences
hold for the resulting registry. (`hwf`: every record is stored under its
own id, which the Keeper guarantees.) -/
theorem C7_absent_id_not_found (dj : TheDJ) (a : Arm) (m mPre : RecordMap)
    (id : Int) (l l' : List Int)
    (hdj : dj.atomic_record_map = some a)
    (hwf : ∀ e ∈ m, e.2.id = e.1)
    (habs : ∀ e ∈ m, e.1 ≠ id)
    (hwfPre : ∀ e ∈ mPre, e.2.id = e.1) :
    dj.get_record (.ok m) id = some (.error TE.MissingRecord) ∧
    (dj.get_roster (.ok m) = some (.ok l) → id ∉ l) ∧
    TheDJ.unregister id true = ([DM2Deck.Deregistration id], .ok ()) ∧
    id ∉ (deckApply mPre (DM2Deck.Deregistration id)).map Prod.fst ∧
    dj.get_record (.ok (deckApply mPre (DM2Deck.Deregistration id))) id =
      some (.error TE.MissingRecord) ∧
    (dj.get_roster (.ok (deckApply mPre (DM2Deck.Deregistration id))) = some (.ok l') →
      id ∉ l') := by
  have roster_absent : ∀ (m₀ : RecordMap) (l₀ : List Int),
      (∀ e ∈ m₀, e.2.id = e.1) → (∀ e ∈ m₀, e.1 ≠ id) →
      dj.get_roster (.ok m₀) = some (.ok l₀) → id ∉ l₀ := by
    intro m₀ l₀ hwf₀ habs₀ hroster hmem
    have hl₀ : l₀ = rosterIds m₀ := by
      by_cases hemp : (rosterIds m₀).isEmpty
      · simp [TheDJ.get_roster, hdj, hemp] at hroster
      · simp [TheDJ.get_roster, hdj, hemp] at hroster
        exact hroster.symm
    rw [hl₀, rosterIds] at hmem
    obtain ⟨e, hem, heid⟩ := List.mem_map.mp hmem
    exact habs₀ e hem (by rw [← hwf₀ e hem, heid])
  have record_absent : ∀ (m₀ : RecordMap), (∀ e ∈ m₀, e.1 ≠ id) →
      dj.get_record (.ok m₀) id = some (.error TE.MissingRecord) := by
    intro m₀ habs₀
    have hfind : m₀.find? (fun e => e.1 == id) = none :=
      List.find?_eq_none.mpr (fun e he => by simpa using habs₀ e he)
    simp [TheDJ.get_record, hdj, hfind]
  have habs' : ∀ e ∈ deckApply mPre (DM2Deck.Deregistration id), e.1 ≠ id := by
    intro e he
    simp only [deckApply, List.mem_filter] at he
    simpa using he.2
  have hwf' : ∀ e ∈ deckApply mPre (DM2Deck.Deregistration id), e.2.id = e.1 := by
    intro e he
    simp only [deckApply, List.mem_filter] at he
    exact hwfPre e he.1
  refine ⟨record_absent m habs, roster_absent m l hwf habs, rfl, ?_,
    record_absent _ habs', roster_absent _ l' hwf' habs'⟩
  intro hmem
  obtain ⟨e, hem, heid⟩ := List.mem_map.mp hmem
  exact habs' e hem heid

theorem C7_witness :
    djA.get_record (.ok mapActive) 3 = some (.error TE.MissingRecord) ∧
    (djA.get_roster (.ok mapActive) = some (.ok [1, 2]) → (3 : Int) ∉ [(1 : Int), 2]) ∧
    TheDJ.unregister 3 true = ([DM2Deck.Deregistration 3], .ok ()) ∧
    (3 : Int) ∉ (deckApply mapActive (DM2Deck.Deregistration 3)).map Prod.fst ∧
    djA.get_record (.ok (deckApply mapActive (DM2Deck.Deregistration 3))) 3 =
      some (.error TE.MissingRecord) ∧
    (djA.get_roster (.ok (deckApply mapActive (DM2Deck.Deregistration 3))) =
        some (.ok [1, 2]) → (3 : Int) ∉ [(1 : Int), 2]) :=
  C7_absent_id_not_found djA {} mapActive mapActive 3 [1, 2] [1, 2] rfl
    (by decide) (by decide) (by decide)

/-- C8: `clear_all()` on a readable, non-empty registry snapshots the roster
once (the one `get_roster` read) and delivers exactly one `Deregistration`
message per id of that snapshot; an id outside the snapshot — e.g. one
registered concurrently after it — gets no `Deregistration` message from
this call. -/
theorem C8_clear_all_snapshot (dj : TheDJ) (a : Arm) (m : RecordMap) (id : Int)
    (hdj : dj.atomic_record_map = some a)
    (hne : rosterIds m ≠ [])
    (hid : id ∉ rosterIds m) :
    dj.clear_all (.ok m) true =
      some ((rosterIds m).map DM2Deck.Deregistration, .ok ()) ∧
    DM2Deck.Deregistration id ∉ (rosterIds m).map DM2Deck.Deregistration := by
  constructor
  · simp [TheDJ.clear_all, TheDJ.get_roster, hdj, List.isEmpty_iff, hne]
  · intro hmem
    obtain ⟨x, hx, hxd⟩ := List.mem_map.mp hmem
    rw [DM2Deck.Deregistration.injEq] at hxd
    rw [hxd] at hx
    exact hid hx

theorem C8_witness :
    djA.clear_all (.ok mapActive) true =
      some ((rosterIds mapActive).map DM2Deck.Deregistration, .ok ()) ∧
    DM2Deck.Deregistration 3 ∉ (rosterIds mapActive).map DM2Deck.Deregistration :=
  C8_clear_all_snapshot djA {} mapActive 3 rfl (by decide) (by decide)

theorem clear_all_isSome (dj : TheDJ) (view : LockRead RecordMap) (s : Bool)
    (h : (dj.get_roster view).isSome) : (dj.clear_all view s).isSome := by
  cases hr : dj.get_roster view with
  | none => rw [hr] at h; exact absurd h (by simp)
  | some r =>
    cases r with
    | error e => simp [TheDJ.clear_all, hr]
    | ok roster => by_cases hs : s = false <;> simp [TheDJ.clear_all, hr, hs]

/-- C9: every `TheDJ` value a successful `init_` handshake returns has
`atomic_record_map` set to `Some`, so the `.expect("You have no ARM here")`
panics inside `get_record`, `get_roster` and `get_roster_actives` (and the
`clear_all` built on them) are unreachable through the public API: each of
those operations returns a value (`isSome`, i.e. no panic) — a result or
one specific error kind — on every view and input. -/
theorem C9_init_sets_arm_no_panic (b sendOk : Bool) (reply : Except Unit DM2DJ)
    (dj : TheDJ) (view : LockRead RecordMap) (id : Int) (s : Bool)
    (h : TheDJ.init_ b sendOk reply = .ok dj) :
    dj.atomic_record_map.isSome ∧
    (dj.get_record view id).isSome ∧
    (dj.get_roster view).isSome ∧
    (dj.get_roster_actives view).isSome ∧
    (dj.clear_all view s).isSome := by
  have harm : ∃ arm, dj.atomic_record_map = some arm := by
    by_cases hs : sendOk = false
    · simp [TheDJ.init_, hs] at h
    · match reply with
      | .ok (.ARM arm) =>
        simp [TheDJ.init_, hs] at h
        exact ⟨arm, by rw [← h]⟩
      | .error e => simp [TheDJ.init_, hs] at h
      | .ok (.ID r) => simp [TheDJ.init_, hs] at h
  obtain ⟨arm, harm⟩ := harm
  refine ⟨by simp [harm], by simp [TheDJ.get_record, harm],
    by simp [TheDJ.get_roster, harm], by simp [TheDJ.get_roster_actives, harm],
    clear_all_isSome dj view s (by simp [TheDJ.get_roster, harm])⟩

theorem C9_witness :
    (djA.atomic_record_map).isSome ∧
    (djA.get_record (.ok mapActive) 1).isSome ∧
    (djA.get_roster (.ok mapActive)).isSome ∧
    (djA.get_roster_actives (.ok mapActive)).isSome ∧
    (djA.clear_all (.ok mapActive) true).isSome :=
  C9_init_sets_arm_no_panic false true (.ok (.ARM {})) djA (.ok mapActive) 1 true rfl

/-- C10: when the registry is empty at the moment `clear_all()` reads it,
the call fails with `EmptyRoster` (propagated from its initial `get_roster`)
instead of succeeding as a no-op, and sends nothing. -/
theorem C10_clear_all_empty_registry (dj : TheDJ) (a : Arm) (sendOk : Bool)
    (hdj : dj.atomic_record_map = some a) :
    dj.clear_all (.ok ([] : RecordMap)) sendOk = some ([], .error TE.EmptyRoster) := by
  simp [TheDJ.clear_all, TheDJ.get_roster, hdj, rosterIds]

theorem C10_witness :
    djA.clear_all (.ok ([] : RecordMap)) true = some ([], .error TE.EmptyRoster) :=
  C10_clear_all_empty_registry djA {} true rfl
